import Mathlib

/-!
Shallow embedding of the AWS interruption controller
(`pkg/controllers/interruption/controller.go`) of the
smartnews/karpenter-provider-aws repository, together with theorems about
its message-to-action pipeline: parsing, correlation, remediation and
queue-message acknowledgement.

External collaborators (the SQS provider, the kube client, the event
parser, the instance-id parser and the clock) are modelled as an explicit
environment of deterministic behaviour functions; the controller's side
effects (event publications, metric increments, cache writes, create /
delete calls) are recorded in an explicit effect trace.
-/

namespace Interruption

/-- Message kinds. In the Go source `messages.Kind` is a string type; the
controller only compares kind values for equality, so the concrete tag
strings are opaque distinct values here (the `messages` package defining
them is outside the embedded file). -/
def ScheduledChangeKind : String := "SCHEDULED_CHANGE"

/-- Kind tag of spot interruption warnings. -/
def SpotInterruptionKind : String := "SPOT_INTERRUPTION"

/-- Kind tag of rebalance recommendations. -/
def RebalanceRecommendationKind : String := "REBALANCE_RECOMMENDATION"

/-- Kind tag of instance state-change notices. -/
def StateChangeKind : String := "STATE_CHANGE"

/-- Kind tag of parsed-but-not-actionable messages. -/
def NoOpKind : String := "NO_OP"

/-- `v1.LabelTopologyZone`. -/
def LabelTopologyZone : String := "topology.kubernetes.io/zone"

/-- `v1.LabelInstanceTypeStable`. -/
def LabelInstanceTypeStable : String := "node.kubernetes.io/instance-type"

/-- `v1beta1.CapacityTypeSpot`. -/
def CapacityTypeSpot : String := "spot"

/-- `v1beta1.NodePoolLabelKey`. -/
def NodePoolLabelKey : String := "karpenter.sh/nodepool"

/-- `v1beta1.CapacityTypeLabelKey`. -/
def CapacityTypeLabelKey : String := "karpenter.sh/capacity-type"

/-- Reason label attached to the NodeClaims-terminated counter
(`terminationReasonLabel` in the interruption package). -/
def terminationReasonLabel : String := "interrupted"

/-- The remediation action decided for a message (`Action` in the source). -/
inductive Action where
  | CordonAndDrain
  | NoAction
deriving DecidableEq

/-- A parsed interruption message: the closed variant set of the `messages`
package flattened to a record — `kind` is the discriminator, `instanceIDs`
models `EC2InstanceIDs()`, `startTime` models `StartTime()`, and `state`
carries the state-change detail (`statechange.Message.Detail.State`),
meaningful only when `kind = StateChangeKind`. -/
structure Message where
  kind : String
  instanceIDs : List String
  startTime : Int
  state : String
deriving DecidableEq

/-- `.status` of a NodeClaim; only `providerID` is read by this controller. -/
structure NodeClaimStatus where
  providerID : String
deriving DecidableEq

/-- A `v1beta1.NodeClaim` restricted to the fields this controller reads or
copies: object metadata (name, generate-name, annotations, labels, owner
references, deletion timestamp), spec (opaque to this controller) and
status. -/
structure NodeClaim where
  name : String
  generateName : String
  annotations : List (String × String)
  labels : List (String × String)
  ownerReferences : List String
  spec : String
  status : NodeClaimStatus
  deletionTimestamp : Option Int
deriving DecidableEq

/-- A `v1.Node` restricted to what the controller reads: its name and
`.spec.providerID`. -/
structure Node where
  name : String
  providerID : String
deriving DecidableEq

/-- Event variants published through the recorder
(`interruptionevents` package). -/
inductive EventKind where
  | rebalanceRecommendation
  | unhealthy
  | spotInterrupted
  | stopping
  | terminating
  | terminatingOnInterruption
deriving DecidableEq

/-- One observable side effect of the controller.  Each constructor records
one call to a collaborator: an event publication, a metric increment, an
unavailable-offerings cache write, a kube create/delete, or an SQS
message-delete call. -/
inductive Effect where
  | publish (ev : EventKind) (nodeClaimName : String)
  | incReceivedMessages (kind : String)
  | incActionsPerformed (action : Action)
  | markUnavailable (reason instanceType zone capacityType : String)
  | createNodeClaimCall (nc : NodeClaim)
  | logCreateError (e : String)
  | deleteNodeClaimCall (name : String)
  | incTerminatedCounter (reason nodePool capacityType : String)
  | observeLatency (v : Int)
  | sqsDelete (id : String)
  | incDeletedMessages
deriving DecidableEq

/-- Result of a `kubeClient.Delete` call: success, a NotFound error
(distinguishable via `client.IgnoreNotFound`), or any other error. -/
inductive KubeDeleteResult where
  | ok
  | notFound
  | otherError (e : String)
deriving DecidableEq

/-- A raw SQS message as the controller sees it: identity plus an optional
body (`*sqsapi.Message` with `Body *string`). -/
structure RawMsg where
  id : String
  body : Option String
deriving DecidableEq

/-- The behaviour of all external collaborators during one reconciliation
cycle, as deterministic functions: the SQS provider's receive and delete,
the kube client's list/create/delete, the event parser, the provider-id
parser and the clock. -/
structure Env where
  getSQSMessages : Except String (List RawMsg)
  listNodeClaims : Except String (List NodeClaim)
  listNodes : Except String (List Node)
  parse : String → Except String Message
  parseInstanceID : String → Except String String
  kubeDelete : String → KubeDeleteResult
  kubeCreate : NodeClaim → Option String
  sqsDelete : String → Option String
  now : Int

/-- Go-map label lookup: the empty string when the key is absent. -/
def lookupLabel (labels : List (String × String)) (key : String) : String :=
  ((labels.find? (fun p => p.1 = key)).map Prod.snd).getD ""

/-- Association-list lookup, modelling a Go map read with `ok` flag. -/
def lookupAssoc {α : Type} (m : List (String × α)) (key : String) : Option α :=
  (m.find? (fun p => p.1 = key)).map Prod.snd

/-- Association-list insert that overwrites, modelling `m[id] = v`. -/
def insertAssoc {α : Type} (m : List (String × α)) (key : String) (v : α) :
    List (String × α) :=
  (key, v) :: m.filter (fun p => ¬ p.1 = key)

/-- `actionForMessage`: `ScheduledChangeKind`, `SpotInterruptionKind` and
`StateChangeKind` map to `CordonAndDrain`; every other kind to `NoAction`. -/
def actionForMessage (msg : Message) : Action :=
  if msg.kind = ScheduledChangeKind ∨ msg.kind = SpotInterruptionKind ∨
      msg.kind = StateChangeKind then
    Action.CordonAndDrain
  else
    Action.NoAction

/-- `Controller.parseMessage`: a nil body is an error, otherwise the parser
runs on the body and its error is wrapped. -/
def parseMessage (env : Env) (raw : RawMsg) : Except String Message :=
  match raw.body with
  | none => Except.error "message or message body is nil"
  | some b =>
    match env.parse b with
    | Except.error e => Except.error ("parsing sqs message, " ++ e)
    | Except.ok msg => Except.ok msg

/-- `Controller.notifyForMessage`: the kind-specific event publication;
state-change messages in state `stopping`/`stopped` publish a Stopping
event, other states a Terminating event. -/
def notifyForMessage (msg : Message) (nodeClaim : NodeClaim) : List Effect :=
  if msg.kind = RebalanceRecommendationKind then
    [Effect.publish EventKind.rebalanceRecommendation nodeClaim.name]
  else if msg.kind = ScheduledChangeKind then
    [Effect.publish EventKind.unhealthy nodeClaim.name]
  else if msg.kind = SpotInterruptionKind then
    [Effect.publish EventKind.spotInterrupted nodeClaim.name]
  else if msg.kind = StateChangeKind then
    if msg.state = "stopping" ∨ msg.state = "stopped" then
      [Effect.publish EventKind.stopping nodeClaim.name]
    else
      [Effect.publish EventKind.terminating nodeClaim.name]
  else
    []

/-- The replacement NodeClaim built by `Controller.createNodeClaim`: it
copies the generate-name, annotations, labels, owner references and spec of
the interrupted claim, and nothing else (fresh name, zero status, no
deletion timestamp). -/
def replacementOf (oldNodeClaim : NodeClaim) : NodeClaim :=
  { name := ""
    generateName := oldNodeClaim.generateName
    annotations := oldNodeClaim.annotations
    labels := oldNodeClaim.labels
    ownerReferences := oldNodeClaim.ownerReferences
    spec := oldNodeClaim.spec
    status := { providerID := "" }
    deletionTimestamp := none }

/-- `Controller.createNodeClaim`: one kube Create call with the replacement
object; the call's error is returned to the caller. -/
def createNodeClaim (env : Env) (oldNodeClaim : NodeClaim) :
    List Effect × Option String :=
  let newNodeClaim := replacementOf oldNodeClaim
  ([Effect.createNodeClaimCall newNodeClaim], env.kubeCreate newNodeClaim)

/-- `Controller.deleteNodeClaim`: an already-deletion-marked claim is a
successful no-op; otherwise one kube Delete call is issued — NotFound is
ignored, any other error is returned, and only on success are the
terminating-on-interruption events published and the terminated counter
incremented. -/
def deleteNodeClaim (env : Env) (nodeClaim : NodeClaim) :
    List Effect × Option String :=
  if nodeClaim.deletionTimestamp ≠ none then
    ([], none)
  else
    match env.kubeDelete nodeClaim.name with
    | KubeDeleteResult.notFound => ([Effect.deleteNodeClaimCall nodeClaim.name], none)
    | KubeDeleteResult.otherError e =>
      ([Effect.deleteNodeClaimCall nodeClaim.name],
       some ("deleting the node on interruption message, " ++ e))
    | KubeDeleteResult.ok =>
      ([Effect.deleteNodeClaimCall nodeClaim.name,
        Effect.publish EventKind.terminatingOnInterruption nodeClaim.name,
        Effect.incTerminatedCounter terminationReasonLabel
          (lookupLabel nodeClaim.labels NodePoolLabelKey)
          (lookupLabel nodeClaim.labels CapacityTypeLabelKey)],
       none)

/-- The spot-interruption block of `Controller.handleNodeClaim`: mark the
claim's offering unavailable in the cache when both the zone and
instance-type labels are present, then attempt the eager replacement
creation, logging (and swallowing) its error. Empty for every other kind. -/
def spotEffects (env : Env) (msg : Message) (nodeClaim : NodeClaim) :
    List Effect :=
  if msg.kind = SpotInterruptionKind then
    (let zone := lookupLabel nodeClaim.labels LabelTopologyZone
     let instanceType := lookupLabel nodeClaim.labels LabelInstanceTypeStable
     if zone ≠ "" ∧ instanceType ≠ "" then
       [Effect.markUnavailable msg.kind instanceType zone CapacityTypeSpot]
     else
       []) ++
    (let cr := createNodeClaim env nodeClaim
     cr.1 ++ (cr.2.map Effect.logCreateError).toList)
  else
    []

/-- `Controller.handleNodeClaim`: publish the kind-specific event and count
the action; for spot interruptions run the `spotEffects` block; finally,
when the action is not `NoAction`, run `deleteNodeClaim` and return its
error (the `node` argument is used only for logging in the source). -/
def handleNodeClaim (env : Env) (msg : Message) (nodeClaim : NodeClaim)
    (node : Option Node) : List Effect × Option String :=
  let _ := node
  let action := actionForMessage msg
  let base := notifyForMessage msg nodeClaim ++
    [Effect.incActionsPerformed action] ++ spotEffects env msg nodeClaim
  if action ≠ Action.NoAction then
    let d := deleteNodeClaim env nodeClaim
    (base ++ d.1, d.2)
  else
    (base, none)

/-- One step of `handleMessage`'s loop over the message's instance ids:
an unmatched id is skipped silently; a matched one runs `handleNodeClaim`
and appends its error, if any, to the per-message multierr. -/
def hmStep (env : Env) (ncMap : List (String × NodeClaim))
    (nMap : List (String × Node)) (msg : Message)
    (acc : List Effect × List String) (instanceID : String) :
    List Effect × List String :=
  match lookupAssoc ncMap instanceID with
  | none => acc
  | some nodeClaim =>
    let r := handleNodeClaim env msg nodeClaim (lookupAssoc nMap instanceID)
    (acc.1 ++ r.1, acc.2 ++ r.2.toList)

/-- `Controller.handleMessage`: count the received message; a NoOp message
is fully handled at once; otherwise loop over the instance ids, observe the
message latency (`now - StartTime()`), and wrap the accumulated multierr,
when non-empty, as the returned error. -/
def handleMessage (env : Env) (ncMap : List (String × NodeClaim))
    (nMap : List (String × Node)) (msg : Message) :
    List Effect × Option String :=
  let eff0 : List Effect := [Effect.incReceivedMessages msg.kind]
  if msg.kind = NoOpKind then
    (eff0, none)
  else
    let acc := msg.instanceIDs.foldl (hmStep env ncMap nMap msg) (eff0, [])
    let effs := acc.1 ++ [Effect.observeLatency (env.now - msg.startTime)]
    match acc.2 with
    | [] => (effs, none)
    | es => (effs, some ("acting on NodeClaims, " ++ String.intercalate "; " es))

/-- `Controller.deleteMessage`: one SQS delete call; on success the deleted
counter is incremented, on failure the wrapped error is returned. -/
def deleteMessage (env : Env) (raw : RawMsg) : List Effect × Option String :=
  match env.sqsDelete raw.id with
  | some e => ([Effect.sqsDelete raw.id], some ("deleting sqs message, " ++ e))
  | none => ([Effect.sqsDelete raw.id, Effect.incDeletedMessages], none)

/-- The per-message handler body run by `workqueue.ParallelizeUntil` inside
`Controller.Reconcile`: a parse failure deletes the message and records
only the delete call's error; a handling failure records the wrapped error
without deleting; otherwise the message is deleted. -/
def handleOne (env : Env) (ncMap : List (String × NodeClaim))
    (nMap : List (String × Node)) (raw : RawMsg) :
    List Effect × Option String :=
  match parseMessage env raw with
  | Except.error _ => deleteMessage env raw
  | Except.ok msg =>
    let h := handleMessage env ncMap nMap msg
    match h.2 with
    | some e => (h.1, some ("handling message, " ++ e))
    | none =>
      let d := deleteMessage env raw
      (h.1 ++ d.1, d.2)

/-- `multierr.Combine`: `none` when every per-message error is `none`,
otherwise an aggregate error. -/
def multierrCombine (errs : List (Option String)) : Option String :=
  match errs.filterMap id with
  | [] => none
  | es => some (String.intercalate "; " es)

/-- `Controller.makeNodeClaimInstanceIDMap`: list the NodeClaims (failure
aborts); index each claim whose `.status.providerID` is non-empty and
parses to a non-empty instance id. -/
def makeNodeClaimInstanceIDMap (env : Env) :
    Except String (List (String × NodeClaim)) :=
  match env.listNodeClaims with
  | Except.error e => Except.error e
  | Except.ok items =>
    Except.ok (items.foldl (fun m nc =>
      if nc.status.providerID = "" then m
      else
        match env.parseInstanceID nc.status.providerID with
        | Except.error _ => m
        | Except.ok id => if id = "" then m else insertAssoc m id nc) [])

/-- `Controller.makeNodeInstanceIDMap`: list the Nodes (failure aborts with
a wrapped error); index each node whose `.spec.providerID` is non-empty and
parses to a non-empty instance id. -/
def makeNodeInstanceIDMap (env : Env) :
    Except String (List (String × Node)) :=
  match env.listNodes with
  | Except.error e => Except.error ("listing nodes, " ++ e)
  | Except.ok items =>
    Except.ok (items.foldl (fun m node =>
      if node.providerID = "" then m
      else
        match env.parseInstanceID node.providerID with
        | Except.error _ => m
        | Except.ok id => if id = "" then m else insertAssoc m id node) [])

/-- `Controller.Reconcile`: receive the batch (failure aborts; empty batch
is a no-op); build both correlation indexes (failure aborts before any
message is touched); run the per-message handler on every message and
combine the per-message errors into the returned aggregate. -/
def reconcile (env : Env) : List Effect × Option String :=
  match env.getSQSMessages with
  | Except.error e => ([], some ("getting messages from queue, " ++ e))
  | Except.ok sqsMessages =>
    if sqsMessages.isEmpty then
      ([], none)
    else
      match makeNodeClaimInstanceIDMap env with
      | Except.error e => ([], some ("making nodeclaim instance id map, " ++ e))
      | Except.ok ncMap =>
        match makeNodeInstanceIDMap env with
        | Except.error e => ([], some ("making node instance id map, " ++ e))
        | Except.ok nMap =>
          let results := sqsMessages.map (handleOne env ncMap nMap)
          ((results.map Prod.fst).flatten,
           multierrCombine (results.map Prod.snd))

/-- Classifier of unavailable-offering cache writes, for effect counting. -/
def isMarkUnavailable : Effect → Bool
  | Effect.markUnavailable _ _ _ _ => true
  | _ => false

/-- Classifier of kube Create calls, for effect counting. -/
def isCreateCall : Effect → Bool
  | Effect.createNodeClaimCall _ => true
  | _ => false

/-- Classifier of deleted-messages counter increments. -/
def isIncDeletedMessages : Effect → Bool
  | Effect.incDeletedMessages => true
  | _ => false

/-- Classifier of latency observations. -/
def isObserveLatency : Effect → Bool
  | Effect.observeLatency _ => true
  | _ => false

/-- Classifier of terminated-counter increments. -/
def isIncTerminatedCounter : Effect → Bool
  | Effect.incTerminatedCounter _ _ _ => true
  | _ => false

/-- Classifier of event publications. -/
def isPublish : Effect → Bool
  | Effect.publish _ _ => true
  | _ => false

/-- Classifier of kube Delete calls on NodeClaims. -/
def isDeleteClaimCall : Effect → Bool
  | Effect.deleteNodeClaimCall _ => true
  | _ => false

/-- Classifier of SQS delete calls. -/
def isSQSDelete : Effect → Bool
  | Effect.sqsDelete _ => true
  | _ => false

/-- Classifier of the effects a `handleNodeClaim` invocation can emit:
everything except the queue-level effects (SQS delete, deleted-messages
counter, latency observation, received-messages counter). -/
def isHandlerEffect : Effect → Bool
  | Effect.publish _ _ => true
  | Effect.incActionsPerformed _ => true
  | Effect.markUnavailable _ _ _ _ => true
  | Effect.createNodeClaimCall _ => true
  | Effect.logCreateError _ => true
  | Effect.deleteNodeClaimCall _ => true
  | Effect.incTerminatedCounter _ _ _ => true
  | _ => false

/-- A concrete collaborator environment for evaluating the theorems: one
spot-interruption message in the queue, one matching NodeClaim, all calls
succeeding. -/
def envOk : Env :=
  { getSQSMessages := Except.ok [{ id := "m-1", body := some "spot-body" }]
    listNodeClaims := Except.ok
      [{ name := "nc-1", generateName := "nc-", annotations := [("a", "1")]
         labels := [(LabelTopologyZone, "us-east-1a"),
                    (LabelInstanceTypeStable, "m5.large"),
                    (NodePoolLabelKey, "default"),
                    (CapacityTypeLabelKey, "spot")]
         ownerReferences := ["pool-default"], spec := "spec-1"
         status := { providerID := "i-123" }, deletionTimestamp := none }]
    listNodes := Except.ok [{ name := "node-1", providerID := "i-123" }]
    parse := fun b =>
      if b = "spot-body" then
        Except.ok { kind := SpotInterruptionKind, instanceIDs := ["i-123"]
                    startTime := 40, state := "" }
      else if b = "noop-body" then
        Except.ok { kind := NoOpKind, instanceIDs := [], startTime := 40
                    state := "" }
      else
        Except.error "unknown payload"
    parseInstanceID := fun s => Except.ok s
    kubeDelete := fun _ => KubeDeleteResult.ok
    kubeCreate := fun _ => none
    sqsDelete := fun _ => none
    now := 100 }

/-- The NodeClaim of `envOk`, for statements at the handler level. -/
def ncOk : NodeClaim :=
  { name := "nc-1", generateName := "nc-", annotations := [("a", "1")]
    labels := [(LabelTopologyZone, "us-east-1a"),
               (LabelInstanceTypeStable, "m5.large"),
               (NodePoolLabelKey, "default"),
               (CapacityTypeLabelKey, "spot")]
    ownerReferences := ["pool-default"], spec := "spec-1"
    status := { providerID := "i-123" }, deletionTimestamp := none }

/-- The spot message of `envOk`. -/
def msgSpot : Message :=
  { kind := SpotInterruptionKind, instanceIDs := ["i-123"], startTime := 40
    state := "" }

/-- A variant of `envOk` whose kube Delete always fails with a
non-NotFound error. -/
def envDeleteFail : Env :=
  { envOk with kubeDelete := fun _ => KubeDeleteResult.otherError "boom" }

/-- A variant of `envOk` whose SQS delete always fails. -/
def envSqsFail : Env :=
  { envOk with
    getSQSMessages := Except.ok [{ id := "m-1", body := some "garbage" }]
    sqsDelete := fun _ => some "sqs down" }

/-- The raw spot-interruption message in `envOk`'s queue. -/
def rawSpot : RawMsg := { id := "m-1", body := some "spot-body" }

/-- A raw message with an absent body (parse failure input). -/
def rawNil : RawMsg := { id := "m-0", body := none }

/-- The NodeClaim correlation index built from `envOk`'s cluster state. -/
def ncMapW : List (String × NodeClaim) := [("i-123", ncOk)]

/-- The Node correlation index built from `envOk`'s cluster state. -/
def nMapW : List (String × Node) :=
  [("i-123", { name := "node-1", providerID := "i-123" })]

/-- An `envOk` variant whose cluster-state listing fails. -/
def envListFail : Env :=
  { envOk with listNodeClaims := Except.error "list failed" }

/-- Classifier of logged (swallowed) replacement-creation errors. -/
def isLogCreateError : Effect → Bool
  | Effect.logCreateError _ => true
  | _ => false

/-- The raw NoOp message understood by `envOk`'s parser. -/
def rawNoop : RawMsg := { id := "m-2", body := some "noop-body" }

/-- The parsed NoOp message of `envOk`. -/
def msgNoop : Message :=
  { kind := NoOpKind, instanceIDs := [], startTime := 40, state := "" }

section Lemmas

/-- Unfolding equation for the effect trace of `handleNodeClaim`. -/
theorem handleNodeClaim_fst (env : Env) (msg : Message)
    (nodeClaim : NodeClaim) (node : Option Node) :
    (handleNodeClaim env msg nodeClaim node).1 =
      notifyForMessage msg nodeClaim ++
      [Effect.incActionsPerformed (actionForMessage msg)] ++
      spotEffects env msg nodeClaim ++
      (if actionForMessage msg ≠ Action.NoAction then
        (deleteNodeClaim env nodeClaim).1
       else []) := by
  by_cases ha : actionForMessage msg ≠ Action.NoAction <;>
    simp [handleNodeClaim, ha]

/-- Unfolding equation for the error of `handleNodeClaim`. -/
theorem handleNodeClaim_snd (env : Env) (msg : Message)
    (nodeClaim : NodeClaim) (node : Option Node) :
    (handleNodeClaim env msg nodeClaim node).2 =
      (if actionForMessage msg ≠ Action.NoAction then
        (deleteNodeClaim env nodeClaim).2
       else none) := by
  by_cases ha : actionForMessage msg ≠ Action.NoAction <;>
    simp [handleNodeClaim, ha]

/-- Unfolding equation for the spot block on a spot-interruption message. -/
theorem spotEffects_spot (env : Env) (msg : Message) (nodeClaim : NodeClaim)
    (hk : msg.kind = SpotInterruptionKind) :
    spotEffects env msg nodeClaim =
      (if lookupLabel nodeClaim.labels LabelTopologyZone ≠ "" ∧
          lookupLabel nodeClaim.labels LabelInstanceTypeStable ≠ "" then
        [Effect.markUnavailable msg.kind
          (lookupLabel nodeClaim.labels LabelInstanceTypeStable)
          (lookupLabel nodeClaim.labels LabelTopologyZone) CapacityTypeSpot]
       else []) ++
      ([Effect.createNodeClaimCall (replacementOf nodeClaim)] ++
       ((env.kubeCreate (replacementOf nodeClaim)).map
          Effect.logCreateError).toList) := by
  simp [spotEffects, createNodeClaim, hk]

/-- The spot block is empty on every other kind. -/
theorem spotEffects_other (env : Env) (msg : Message) (nodeClaim : NodeClaim)
    (hk : ¬ msg.kind = SpotInterruptionKind) :
    spotEffects env msg nodeClaim = [] := by
  simp [spotEffects, hk]

/-- Every effect emitted by `notifyForMessage` is an event publication. -/
theorem notifyForMessage_handler (msg : Message) (nodeClaim : NodeClaim) :
    ∀ e ∈ notifyForMessage msg nodeClaim, isHandlerEffect e = true := by
  intro e he
  unfold notifyForMessage at he
  split_ifs at he <;>
    simp only [List.mem_singleton, List.not_mem_nil] at he <;>
    first
    | exact absurd he (by simp)
    | (subst he; rfl)

/-- Every effect emitted by the spot block is handler-local. -/
theorem spotEffects_handler (env : Env) (msg : Message)
    (nodeClaim : NodeClaim) :
    ∀ e ∈ spotEffects env msg nodeClaim, isHandlerEffect e = true := by
  intro e he
  by_cases hk : msg.kind = SpotInterruptionKind
  · rw [spotEffects_spot env msg nodeClaim hk] at he
    simp only [List.mem_append, List.mem_singleton] at he
    rcases he with he | he | he
    · split_ifs at he <;> simp only [List.mem_singleton, List.not_mem_nil] at he
      subst he; rfl
    · subst he; rfl
    · cases h : env.kubeCreate (replacementOf nodeClaim) <;> rw [h] at he
      · simp at he
      · simp only [Option.map_some', Option.toList_some,
          List.mem_singleton] at he
        subst he; rfl
  · rw [spotEffects_other env msg nodeClaim hk] at he
    exact absurd he (by simp)

/-- Every effect emitted by `deleteNodeClaim` is handler-local. -/
theorem deleteNodeClaim_handler (env : Env) (nodeClaim : NodeClaim) :
    ∀ e ∈ (deleteNodeClaim env nodeClaim).1, isHandlerEffect e = true := by
  intro e he
  unfold deleteNodeClaim at he
  split_ifs at he
  · exact absurd he (by simp)
  · cases h : env.kubeDelete nodeClaim.name <;> rw [h] at he <;>
      simp only [List.mem_singleton, List.mem_cons,
        List.not_mem_nil, or_false] at he
    · rcases he with rfl | rfl | rfl <;> rfl
    · subst he; rfl
    · subst he; rfl

/-- Every effect emitted by `handleNodeClaim` is handler-local: a
node-claim handler never touches the queue or the message-level metrics. -/
theorem handleNodeClaim_handler (env : Env) (msg : Message)
    (nodeClaim : NodeClaim) (node : Option Node) :
    ∀ e ∈ (handleNodeClaim env msg nodeClaim node).1,
      isHandlerEffect e = true := by
  intro e he
  rw [handleNodeClaim_fst] at he
  simp only [List.mem_append, List.mem_singleton] at he
  rcases he with ((he | he) | he) | he
  · exact notifyForMessage_handler msg nodeClaim e he
  · subst he; rfl
  · exact spotEffects_handler env msg nodeClaim e he
  · split_ifs at he
    · exact deleteNodeClaim_handler env nodeClaim e he
    · exact absurd he (by simp)

/-- `hmStep` on an unmatched instance id is the identity. -/
theorem hmStep_none (env : Env) (ncMap : List (String × NodeClaim))
    (nMap : List (String × Node)) (msg : Message)
    (acc : List Effect × List String) (x : String)
    (h : lookupAssoc ncMap x = none) :
    hmStep env ncMap nMap msg acc x = acc := by
  simp [hmStep, h]

/-- `hmStep` on a matched instance id appends the node-claim handler's
effects and error. -/
theorem hmStep_some (env : Env) (ncMap : List (String × NodeClaim))
    (nMap : List (String × Node)) (msg : Message)
    (acc : List Effect × List String) (x : String) (nc : NodeClaim)
    (h : lookupAssoc ncMap x = some nc) :
    hmStep env ncMap nMap msg acc x =
      (acc.1 ++ (handleNodeClaim env msg nc (lookupAssoc nMap x)).1,
       acc.2 ++ (handleNodeClaim env msg nc (lookupAssoc nMap x)).2.toList) := by
  simp [hmStep, h]

/-- One `hmStep` only ever appends to the error accumulator. -/
theorem hmStep_snd_suffix (env : Env) (ncMap : List (String × NodeClaim))
    (nMap : List (String × Node)) (msg : Message)
    (acc : List Effect × List String) (x : String) :
    ∃ t, (hmStep env ncMap nMap msg acc x).2 = acc.2 ++ t := by
  cases h : lookupAssoc ncMap x with
  | none => exact ⟨[], by rw [hmStep_none env ncMap nMap msg acc x h]; simp⟩
  | some nc =>
    exact ⟨(handleNodeClaim env msg nc (lookupAssoc nMap x)).2.toList,
      by rw [hmStep_some env ncMap nMap msg acc x nc h]⟩

/-- The instance-id loop only ever appends to the error accumulator. -/
theorem hmFold_snd_suffix (env : Env) (ncMap : List (String × NodeClaim))
    (nMap : List (String × Node)) (msg : Message) :
    ∀ (ids : List String) (acc : List Effect × List String),
      ∃ t, (ids.foldl (hmStep env ncMap nMap msg) acc).2 = acc.2 ++ t := by
  intro ids
  induction ids with
  | nil => intro acc; exact ⟨[], by simp⟩
  | cons a as ih =>
    intro acc
    obtain ⟨t1, h1⟩ := hmStep_snd_suffix env ncMap nMap msg acc a
    obtain ⟨t2, h2⟩ := ih (hmStep env ncMap nMap msg acc a)
    exact ⟨t1 ++ t2, by rw [List.foldl_cons, h2, h1, List.append_assoc]⟩

/-- An already non-empty error accumulator stays non-empty. -/
theorem hmFold_snd_ne_nil (env : Env) (ncMap : List (String × NodeClaim))
    (nMap : List (String × Node)) (msg : Message) (ids : List String)
    (acc : List Effect × List String) (hacc : acc.2 ≠ []) :
    (ids.foldl (hmStep env ncMap nMap msg) acc).2 ≠ [] := by
  obtain ⟨t, ht⟩ := hmFold_snd_suffix env ncMap nMap msg ids acc
  rw [ht]
  intro hc
  exact hacc (List.append_eq_nil.mp hc).1

/-- If some listed instance id is matched to a NodeClaim whose handler
errors, the loop's error accumulator ends up non-empty. -/
theorem hmFold_err_of_mem (env : Env) (ncMap : List (String × NodeClaim))
    (nMap : List (String × Node)) (msg : Message) (instanceID : String)
    (nc : NodeClaim) (e : String)
    (hnc : lookupAssoc ncMap instanceID = some nc)
    (he : (handleNodeClaim env msg nc (lookupAssoc nMap instanceID)).2 =
      some e) :
    ∀ (ids : List String) (acc : List Effect × List String),
      instanceID ∈ ids →
      (ids.foldl (hmStep env ncMap nMap msg) acc).2 ≠ [] := by
  intro ids
  induction ids with
  | nil => intro acc h; exact absurd h (List.not_mem_nil instanceID)
  | cons a as ih =>
    intro acc hmem
    rw [List.foldl_cons]
    rcases List.mem_cons.mp hmem with heq | hmem2
    · subst heq
      apply hmFold_snd_ne_nil
      rw [hmStep_some env ncMap nMap msg acc instanceID nc hnc]
      simp [he]
    · exact ih (hmStep env ncMap nMap msg acc a) hmem2

/-- A loop over instance ids none of which is matched is the identity. -/
theorem hmFold_id_of_nomatch (env : Env) (ncMap : List (String × NodeClaim))
    (nMap : List (String × Node)) (msg : Message) :
    ∀ (ids : List String), (∀ x ∈ ids, lookupAssoc ncMap x = none) →
      ∀ acc, ids.foldl (hmStep env ncMap nMap msg) acc = acc := by
  intro ids
  induction ids with
  | nil => intro _ acc; rfl
  | cons a as ih =>
    intro h acc
    rw [List.foldl_cons, hmStep_none env ncMap nMap msg acc a
      (h a (List.mem_cons_self a as))]
    exact ih (fun x hx => h x (List.mem_cons_of_mem a hx)) acc

/-- Invariant transfer through the instance-id loop: every effect the loop
adds comes from some `handleNodeClaim` invocation. -/
theorem hmFold_fst_forall {p : Effect → Prop} (env : Env)
    (ncMap : List (String × NodeClaim)) (nMap : List (String × Node))
    (msg : Message)
    (hstep : ∀ nc nd, ∀ e ∈ (handleNodeClaim env msg nc nd).1, p e) :
    ∀ (ids : List String) (acc : List Effect × List String),
      (∀ e ∈ acc.1, p e) →
      ∀ e ∈ (ids.foldl (hmStep env ncMap nMap msg) acc).1, p e := by
  intro ids
  induction ids with
  | nil => intro acc hacc; exact hacc
  | cons a as ih =>
    intro acc hacc
    rw [List.foldl_cons]
    apply ih
    cases h : lookupAssoc ncMap a with
    | none => rw [hmStep_none env ncMap nMap msg acc a h]; exact hacc
    | some nc =>
      rw [hmStep_some env ncMap nMap msg acc a nc h]
      intro e he
      rcases List.mem_append.mp he with h1 | h2
      · exact hacc e h1
      · exact hstep nc (lookupAssoc nMap a) e h2

/-- `handleMessage` on a NoOp message: count it and succeed at once. -/
theorem handleMessage_noOp (env : Env) (ncMap : List (String × NodeClaim))
    (nMap : List (String × Node)) (msg : Message)
    (hk : msg.kind = NoOpKind) :
    handleMessage env ncMap nMap msg =
      ([Effect.incReceivedMessages msg.kind], none) := by
  simp [handleMessage, hk]

/-- Effect trace of `handleMessage` on a non-NoOp message: the loop's
effects followed by the latency observation. -/
theorem handleMessage_fst (env : Env) (ncMap : List (String × NodeClaim))
    (nMap : List (String × Node)) (msg : Message)
    (hk : ¬ msg.kind = NoOpKind) :
    (handleMessage env ncMap nMap msg).1 =
      (msg.instanceIDs.foldl (hmStep env ncMap nMap msg)
        ([Effect.incReceivedMessages msg.kind], [])).1 ++
      [Effect.observeLatency (env.now - msg.startTime)] := by
  simp only [handleMessage, if_neg hk]
  split <;> rfl

/-- `handleMessage` on a non-NoOp message succeeds exactly when the loop's
error accumulator is empty. -/
theorem handleMessage_snd_none_iff (env : Env)
    (ncMap : List (String × NodeClaim)) (nMap : List (String × Node))
    (msg : Message) (hk : ¬ msg.kind = NoOpKind) :
    ((handleMessage env ncMap nMap msg).2 = none ↔
      (msg.instanceIDs.foldl (hmStep env ncMap nMap msg)
        ([Effect.incReceivedMessages msg.kind], [])).2 = []) := by
  simp only [handleMessage, if_neg hk]
  split
  · simp_all
  · simp_all

/-- Every effect of `handleMessage` is either handler-local, the
received-messages counter, or the latency observation — never a queue
delete or the deleted-messages counter. -/
theorem handleMessage_fst_mem (env : Env)
    (ncMap : List (String × NodeClaim)) (nMap : List (String × Node))
    (msg : Message) :
    ∀ e ∈ (handleMessage env ncMap nMap msg).1,
      isHandlerEffect e = true ∨ e = Effect.incReceivedMessages msg.kind ∨
        e = Effect.observeLatency (env.now - msg.startTime) := by
  intro e he
  by_cases hk : msg.kind = NoOpKind
  · rw [handleMessage_noOp env ncMap nMap msg hk] at he
    simp only [List.mem_singleton] at he
    exact Or.inr (Or.inl he)
  · rw [handleMessage_fst env ncMap nMap msg hk] at he
    rcases List.mem_append.mp he with h1 | h2
    · refine hmFold_fst_forall
        (p := fun x => isHandlerEffect x = true ∨
          x = Effect.incReceivedMessages msg.kind ∨
          x = Effect.observeLatency (env.now - msg.startTime))
        env ncMap nMap msg
        (fun nc nd x hx => Or.inl (handleNodeClaim_handler env msg nc nd x hx))
        msg.instanceIDs ([Effect.incReceivedMessages msg.kind], []) ?acc e h1
      intro x hx
      simp only [List.mem_singleton] at hx
      exact Or.inr (Or.inl hx)
    · simp only [List.mem_singleton] at h2
      exact Or.inr (Or.inr h2)

/-- `deleteMessage` when the SQS delete call succeeds. -/
theorem deleteMessage_ok (env : Env) (raw : RawMsg)
    (hd : env.sqsDelete raw.id = none) :
    deleteMessage env raw =
      ([Effect.sqsDelete raw.id, Effect.incDeletedMessages], none) := by
  simp [deleteMessage, hd]

/-- `deleteMessage` when the SQS delete call fails. -/
theorem deleteMessage_fail (env : Env) (raw : RawMsg) (e : String)
    (hd : env.sqsDelete raw.id = some e) :
    deleteMessage env raw =
      ([Effect.sqsDelete raw.id],
       some ("deleting sqs message, " ++ e)) := by
  simp [deleteMessage, hd]

/-- The per-message handler on a parse failure is exactly the queue
delete. -/
theorem handleOne_parse_error (env : Env)
    (ncMap : List (String × NodeClaim)) (nMap : List (String × Node))
    (raw : RawMsg) (e : String) (hp : parseMessage env raw = Except.error e) :
    handleOne env ncMap nMap raw = deleteMessage env raw := by
  simp [handleOne, hp]

/-- The per-message handler on a handling failure: the message's effects
without any queue delete, and the wrapped handling error. -/
theorem handleOne_handle_error (env : Env)
    (ncMap : List (String × NodeClaim)) (nMap : List (String × Node))
    (raw : RawMsg) (msg : Message) (e : String)
    (hp : parseMessage env raw = Except.ok msg)
    (hh : (handleMessage env ncMap nMap msg).2 = some e) :
    handleOne env ncMap nMap raw =
      ((handleMessage env ncMap nMap msg).1,
       some ("handling message, " ++ e)) := by
  simp [handleOne, hp, hh]

/-- The per-message handler on a handling success: the message's effects
followed by the queue delete. -/
theorem handleOne_ok (env : Env) (ncMap : List (String × NodeClaim))
    (nMap : List (String × Node)) (raw : RawMsg) (msg : Message)
    (hp : parseMessage env raw = Except.ok msg)
    (hh : (handleMessage env ncMap nMap msg).2 = none) :
    handleOne env ncMap nMap raw =
      ((handleMessage env ncMap nMap msg).1 ++ (deleteMessage env raw).1,
       (deleteMessage env raw).2) := by
  simp [handleOne, hp, hh]

/-- `multierr.Combine` of a list with a non-nil entry is non-nil. -/
theorem multierrCombine_ne_none (errs : List (Option String)) (i : Nat)
    (hi : i < errs.length) (h : errs.get ⟨i, hi⟩ ≠ none) :
    multierrCombine errs ≠ none := by
  unfold multierrCombine
  cases hf : errs.filterMap id with
  | nil =>
    exfalso
    obtain ⟨a, ha⟩ := Option.ne_none_iff_exists.mp h
    have hmem : a ∈ errs.filterMap id :=
      List.mem_filterMap.mpr ⟨errs.get ⟨i, hi⟩, errs.get_mem i hi, ha.symm⟩
    rw [hf] at hmem
    exact absurd hmem (List.not_mem_nil a)
  | cons b bs => simp

/-- `Reconcile` under successful receive and listing: each message is run
through the per-message handler and the per-message errors are combined. -/
theorem reconcile_ok (env : Env) (msgs : List RawMsg)
    (ncMap : List (String × NodeClaim)) (nMap : List (String × Node))
    (hq : env.getSQSMessages = Except.ok msgs) (hne : msgs ≠ [])
    (hnc : makeNodeClaimInstanceIDMap env = Except.ok ncMap)
    (hn : makeNodeInstanceIDMap env = Except.ok nMap) :
    reconcile env =
      (((msgs.map (handleOne env ncMap nMap)).map Prod.fst).flatten,
       multierrCombine ((msgs.map (handleOne env ncMap nMap)).map
         Prod.snd)) := by
  simp [reconcile, hq, hnc, hn, List.isEmpty_iff, hne]

/-- If any message's handler ends in an error, the reconcile cycle's
aggregate error is non-empty. -/
theorem reconcile_err_of_handler_err (env : Env) (msgs : List RawMsg)
    (ncMap : List (String × NodeClaim)) (nMap : List (String × Node))
    (i : Nat) (hq : env.getSQSMessages = Except.ok msgs)
    (hnc : makeNodeClaimInstanceIDMap env = Except.ok ncMap)
    (hn : makeNodeInstanceIDMap env = Except.ok nMap)
    (hi : i < msgs.length)
    (herr : (handleOne env ncMap nMap (msgs.get ⟨i, hi⟩)).2 ≠ none) :
    (reconcile env).2 ≠ none := by
  have hne : msgs ≠ [] := by
    intro hc
    subst hc
    exact absurd hi (by simp)
  rw [reconcile_ok env msgs ncMap nMap hq hne hnc hn]
  have hlen : i < ((msgs.map (handleOne env ncMap nMap)).map
      Prod.snd).length := by simpa using hi
  apply multierrCombine_ne_none _ i hlen
  have hget : ((msgs.map (handleOne env ncMap nMap)).map Prod.snd).get
      ⟨i, hlen⟩ = (handleOne env ncMap nMap (msgs.get ⟨i, hi⟩)).2 := by
    simp [List.get_eq_getElem, List.getElem_map]
  rw [hget]
  exact herr

/-- `notifyForMessage` on a spot-interruption message publishes exactly
the spot-interrupted event. -/
theorem notifyForMessage_spot (msg : Message) (nc : NodeClaim)
    (hk : msg.kind = SpotInterruptionKind) :
    notifyForMessage msg nc =
      [Effect.publish EventKind.spotInterrupted nc.name] := by
  simp [notifyForMessage, hk, SpotInterruptionKind,
    RebalanceRecommendationKind, ScheduledChangeKind]

/-- A spot-interruption message's action is `CordonAndDrain`. -/
theorem actionForMessage_spot (msg : Message)
    (hk : msg.kind = SpotInterruptionKind) :
    actionForMessage msg = Action.CordonAndDrain := by
  simp [actionForMessage, hk]

/-- `deleteNodeClaim` emits no cache write and no create call. -/
theorem deleteNodeClaim_fst_counts (env : Env) (nc : NodeClaim) :
    List.countP isMarkUnavailable (deleteNodeClaim env nc).1 = 0 ∧
    List.countP isCreateCall (deleteNodeClaim env nc).1 = 0 := by
  by_cases h : nc.deletionTimestamp ≠ none
  · simp [deleteNodeClaim, h]
  · cases hk : env.kubeDelete nc.name <;>
      simp [deleteNodeClaim, h, hk, isMarkUnavailable, isCreateCall]

/-- Counting the spot block's effects: exactly one cache write when both
labels are present (none otherwise) and exactly one create call. -/
theorem spotEffects_counts (env : Env) (msg : Message) (nc : NodeClaim)
    (hk : msg.kind = SpotInterruptionKind) :
    (lookupLabel nc.labels LabelTopologyZone ≠ "" ∧
       lookupLabel nc.labels LabelInstanceTypeStable ≠ "" →
      List.countP isMarkUnavailable (spotEffects env msg nc) = 1 ∧
      Effect.markUnavailable msg.kind
        (lookupLabel nc.labels LabelInstanceTypeStable)
        (lookupLabel nc.labels LabelTopologyZone) CapacityTypeSpot ∈
        spotEffects env msg nc) ∧
    (¬ (lookupLabel nc.labels LabelTopologyZone ≠ "" ∧
        lookupLabel nc.labels LabelInstanceTypeStable ≠ "") →
      List.countP isMarkUnavailable (spotEffects env msg nc) = 0) ∧
    List.countP isCreateCall (spotEffects env msg nc) = 1 ∧
    Effect.createNodeClaimCall (replacementOf nc) ∈
      spotEffects env msg nc := by
  rw [spotEffects_spot env msg nc hk]
  refine ⟨?_, ?_, ?_, ?_⟩
  · intro hl
    rw [if_pos hl]
    constructor
    · cases hcr : env.kubeCreate (replacementOf nc) <;>
        simp [hcr, isMarkUnavailable, List.countP_append, List.countP_cons]
    · simp
  · intro hl
    rw [if_neg hl]
    cases hcr : env.kubeCreate (replacementOf nc) <;>
      simp [hcr, isMarkUnavailable, List.countP_append, List.countP_cons]
  · split_ifs <;>
      (cases hcr : env.kubeCreate (replacementOf nc) <;>
        simp [hcr, isCreateCall, List.countP_append, List.countP_cons])
  · split_ifs <;> simp

/-- Every spot-block effect is a cache write, a create call, or a logged
creation error. -/
theorem spotEffects_classes (env : Env) (msg : Message) (nc : NodeClaim) :
    ∀ e ∈ spotEffects env msg nc,
      isMarkUnavailable e = true ∨ isCreateCall e = true ∨
      isLogCreateError e = true := by
  intro e he
  by_cases hk : msg.kind = SpotInterruptionKind
  · rw [spotEffects_spot env msg nc hk] at he
    simp only [List.mem_append, List.mem_singleton] at he
    rcases he with he | he | he
    · split_ifs at he <;>
        simp only [List.mem_singleton, List.not_mem_nil] at he
      subst he
      exact Or.inl rfl
    · subst he
      exact Or.inr (Or.inl rfl)
    · cases hcr : env.kubeCreate (replacementOf nc) <;> rw [hcr] at he
      · simp at he
      · simp only [Option.map_some', Option.toList_some,
          List.mem_singleton] at he
        subst he
        exact Or.inr (Or.inr rfl)
  · rw [spotEffects_other env msg nc hk] at he
    exact absurd he (by simp)

/-- A handler-local effect is none of the queue-level effects. -/
theorem handlerEffect_not_queue (e : Effect) (h : isHandlerEffect e = true) :
    isIncDeletedMessages e = false ∧ isObserveLatency e = false ∧
    isSQSDelete e = false := by
  cases e <;> simp_all [isHandlerEffect, isIncDeletedMessages,
    isObserveLatency, isSQSDelete]

/-- A spot-block effect is neither a NodeClaim delete call nor a
termination-counter increment. -/
theorem spotClass_not_delete (e : Effect)
    (h : isMarkUnavailable e = true ∨ isCreateCall e = true ∨
      isLogCreateError e = true) :
    isIncTerminatedCounter e = false ∧ isDeleteClaimCall e = false := by
  cases e <;> simp_all [isMarkUnavailable, isCreateCall, isLogCreateError,
    isIncTerminatedCounter, isDeleteClaimCall]

end Lemmas

section Claims

/-- C7: `actionForMessage` returns `CordonAndDrain` exactly when the
message's kind is the scheduled-change, spot-interruption or state-change
kind, and `NoAction` for every other kind (rebalance recommendation, no-op,
and any unknown kind); it is a pure total function with no error case. -/
theorem C7_action_for_message :
    (∀ msg : Message,
      (actionForMessage msg = Action.CordonAndDrain ↔
        (msg.kind = ScheduledChangeKind ∨ msg.kind = SpotInterruptionKind ∨
         msg.kind = StateChangeKind)) ∧
      (actionForMessage msg = Action.NoAction ↔
        ¬ (msg.kind = ScheduledChangeKind ∨
           msg.kind = SpotInterruptionKind ∨
           msg.kind = StateChangeKind))) ∧
    (∀ (ids : List String) (t : Int) (s : String),
      actionForMessage
        (Message.mk RebalanceRecommendationKind ids t s) = Action.NoAction ∧
      actionForMessage
        (Message.mk NoOpKind ids t s) = Action.NoAction) := by
  constructor
  · intro msg
    by_cases h : msg.kind = ScheduledChangeKind ∨
        msg.kind = SpotInterruptionKind ∨ msg.kind = StateChangeKind
    · constructor <;> simp [actionForMessage, h]
    · constructor <;> simp [actionForMessage, h]
  · intro ids t s
    constructor <;>
      simp [actionForMessage, RebalanceRecommendationKind, NoOpKind,
        ScheduledChangeKind, SpotInterruptionKind, StateChangeKind]

/-- C3: `deleteNodeClaim` is an idempotent delete: an already
deletion-marked claim is a successful no-op with no delete call, no
terminating notification and no termination-counter increment; otherwise a
delete call is issued, NotFound is success, any other error propagates,
and the notification and the counter are emitted exactly when the delete
call succeeds — so a second invocation on an already-marked claim never
errors and never double-emits the counter. -/
theorem C3_delete_node_claim (env : Env) (nodeClaim : NodeClaim) :
    (nodeClaim.deletionTimestamp ≠ none →
      deleteNodeClaim env nodeClaim = ([], none)) ∧
    (nodeClaim.deletionTimestamp = none →
      Effect.deleteNodeClaimCall nodeClaim.name ∈
        (deleteNodeClaim env nodeClaim).1 ∧
      (env.kubeDelete nodeClaim.name = KubeDeleteResult.notFound →
        (deleteNodeClaim env nodeClaim).2 = none) ∧
      (∀ e, env.kubeDelete nodeClaim.name = KubeDeleteResult.otherError e →
        (deleteNodeClaim env nodeClaim).2 =
          some ("deleting the node on interruption message, " ++ e)) ∧
      (env.kubeDelete nodeClaim.name = KubeDeleteResult.ok →
        (deleteNodeClaim env nodeClaim).2 = none) ∧
      (Effect.publish EventKind.terminatingOnInterruption nodeClaim.name ∈
          (deleteNodeClaim env nodeClaim).1 ↔
        env.kubeDelete nodeClaim.name = KubeDeleteResult.ok) ∧
      (List.countP isIncTerminatedCounter (deleteNodeClaim env nodeClaim).1 =
        if env.kubeDelete nodeClaim.name = KubeDeleteResult.ok
        then 1 else 0)) ∧
    (∀ t, deleteNodeClaim env
      { nodeClaim with deletionTimestamp := some t } = ([], none)) := by
  refine ⟨?marked, ?unmarked, ?second⟩
  · intro h
    simp [deleteNodeClaim, h]
  · intro h
    cases hk : env.kubeDelete nodeClaim.name <;>
      simp [deleteNodeClaim, h, hk, isIncTerminatedCounter]
  · intro t
    simp [deleteNodeClaim]

/-- Witness for C3 evaluated in the concrete environment. -/
theorem C3_delete_node_claim_witness :
    deleteNodeClaim envOk { ncOk with deletionTimestamp := some 7 } =
      ([], none) ∧
    Effect.deleteNodeClaimCall "nc-1" ∈ (deleteNodeClaim envOk ncOk).1 :=
  ⟨(C3_delete_node_claim envOk ncOk).2.2 7,
   ((C3_delete_node_claim envOk ncOk).2.1 rfl).1⟩

/-- C6: if the message batch is non-empty and either cluster-state listing
fails, `reconcile` returns an error having produced no effect at all — no
remediation side effect and no queue-message delete happen in that cycle. -/
theorem C6_listing_failure_aborts (env : Env) (msgs : List RawMsg)
    (hq : env.getSQSMessages = Except.ok msgs) (hne : msgs ≠ [])
    (hfail : (∃ e, env.listNodeClaims = Except.error e) ∨
             (∃ e, env.listNodes = Except.error e)) :
    (reconcile env).1 = [] ∧ (reconcile env).2 ≠ none := by
  rcases hfail with ⟨e, he⟩ | ⟨e, he⟩
  · have hnc : makeNodeClaimInstanceIDMap env = Except.error e := by
      simp [makeNodeClaimInstanceIDMap, he]
    simp [reconcile, hq, List.isEmpty_iff, hne, hnc]
  · cases hnc : makeNodeClaimInstanceIDMap env with
    | error e2 => simp [reconcile, hq, List.isEmpty_iff, hne, hnc]
    | ok ncMap =>
      have hn : makeNodeInstanceIDMap env =
          Except.error ("listing nodes, " ++ e) := by
        simp [makeNodeInstanceIDMap, he]
      simp [reconcile, hq, List.isEmpty_iff, hne, hnc, hn]

/-- Witness for C6 evaluated in the concrete failing environment. -/
theorem C6_listing_failure_aborts_witness :
    (reconcile envListFail).1 = [] ∧ (reconcile envListFail).2 ≠ none :=
  C6_listing_failure_aborts envListFail [rawSpot] rfl (by simp)
    (Or.inl ⟨"list failed", rfl⟩)

/-- C4: a message that fails to parse (including an absent body) is still
deleted from the queue — the per-message handler is exactly the queue
delete — and the parse error itself never reaches the aggregate error: the
handler's recorded error is the delete call's own result, which is `none`
whenever the delete succeeds. -/
theorem C4_parse_failure_still_deletes (env : Env)
    (ncMap : List (String × NodeClaim)) (nMap : List (String × Node))
    (raw : RawMsg) (e : String)
    (hp : parseMessage env raw = Except.error e) :
    handleOne env ncMap nMap raw = deleteMessage env raw ∧
    Effect.sqsDelete raw.id ∈ (handleOne env ncMap nMap raw).1 ∧
    (env.sqsDelete raw.id = none →
      (handleOne env ncMap nMap raw).2 = none) := by
  have h1 := handleOne_parse_error env ncMap nMap raw e hp
  refine ⟨h1, ?mem, ?succ⟩
  · rw [h1]
    cases hd : env.sqsDelete raw.id with
    | some e2 => rw [deleteMessage_fail env raw e2 hd]; simp
    | none => rw [deleteMessage_ok env raw hd]; simp
  · intro hd
    rw [h1, deleteMessage_ok env raw hd]

/-- Witness for C4: the nil-body message in the concrete environment. -/
theorem C4_parse_failure_still_deletes_witness :
    Effect.sqsDelete "m-0" ∈ (handleOne envOk ncMapW nMapW rawNil).1 ∧
    (handleOne envOk ncMapW nMapW rawNil).2 = none :=
  ⟨(C4_parse_failure_still_deletes envOk ncMapW nMapW rawNil
      "message or message body is nil" rfl).2.1,
   (C4_parse_failure_still_deletes envOk ncMapW nMapW rawNil
      "message or message body is nil" rfl).2.2 rfl⟩

/-- C1: for a successfully parsed message whose remediation
(`handleMessage`) errors, the per-message handler issues no queue-delete
call at all, records a non-nil error, and the cycle's aggregate error is
non-empty; and a non-NotFound error from the cluster-state delete of a
matched, not-yet-deleting NodeClaim under a CordonAndDrain action is such
a remediation error. -/
theorem C1_remediation_error_keeps_message (env : Env) (msgs : List RawMsg)
    (ncMap : List (String × NodeClaim)) (nMap : List (String × Node))
    (i : Nat) (msg : Message) (e : String)
    (hq : env.getSQSMessages = Except.ok msgs)
    (hnc : makeNodeClaimInstanceIDMap env = Except.ok ncMap)
    (hn : makeNodeInstanceIDMap env = Except.ok nMap)
    (hi : i < msgs.length)
    (hp : parseMessage env (msgs.get ⟨i, hi⟩) = Except.ok msg)
    (hh : (handleMessage env ncMap nMap msg).2 = some e) :
    (∀ s, Effect.sqsDelete s ∉
      (handleOne env ncMap nMap (msgs.get ⟨i, hi⟩)).1) ∧
    (handleOne env ncMap nMap (msgs.get ⟨i, hi⟩)).2 ≠ none ∧
    (reconcile env).2 ≠ none ∧
    (∀ (m2 : Message) (nc : NodeClaim) (instanceID : String) (s : String),
      instanceID ∈ m2.instanceIDs →
      lookupAssoc ncMap instanceID = some nc →
      actionForMessage m2 = Action.CordonAndDrain →
      nc.deletionTimestamp = none →
      env.kubeDelete nc.name = KubeDeleteResult.otherError s →
      (handleMessage env ncMap nMap m2).2 ≠ none) := by
  have heq := handleOne_handle_error env ncMap nMap (msgs.get ⟨i, hi⟩)
    msg e hp hh
  have herr : (handleOne env ncMap nMap (msgs.get ⟨i, hi⟩)).2 ≠ none := by
    rw [heq]
    simp
  refine ⟨?nodelete, herr,
    reconcile_err_of_handler_err env msgs ncMap nMap i hq hnc hn hi herr,
    ?remerr⟩
  · intro s hs
    rw [heq] at hs
    rcases handleMessage_fst_mem env ncMap nMap msg (Effect.sqsDelete s) hs
      with h1 | h1 | h1 <;> simp [isHandlerEffect] at h1
  · intro m2 nc instanceID s hid hlook hact hdt hkd
    have hcond : m2.kind = ScheduledChangeKind ∨
        m2.kind = SpotInterruptionKind ∨ m2.kind = StateChangeKind := by
      by_contra hc
      simp [actionForMessage, hc] at hact
    have hknoop : ¬ m2.kind = NoOpKind := by
      rcases hcond with h | h | h <;> rw [h] <;>
        simp [ScheduledChangeKind, SpotInterruptionKind, StateChangeKind,
          NoOpKind]
    have hdel : (deleteNodeClaim env nc).2 =
        some ("deleting the node on interruption message, " ++ s) := by
      simp [deleteNodeClaim, hdt, hkd]
    have hhnc : (handleNodeClaim env m2 nc (lookupAssoc nMap instanceID)).2 =
        some ("deleting the node on interruption message, " ++ s) := by
      rw [handleNodeClaim_snd, hact]
      simp [hdel]
    intro hc
    exact hmFold_err_of_mem env ncMap nMap m2 instanceID nc
      ("deleting the node on interruption message, " ++ s) hlook hhnc
      m2.instanceIDs ([Effect.incReceivedMessages m2.kind], []) hid
      ((handleMessage_snd_none_iff env ncMap nMap m2 hknoop).mp hc)

/-- Witness for C1 in the concrete environment whose kube Delete fails. -/
theorem C1_remediation_error_keeps_message_witness :
    (handleOne envDeleteFail ncMapW nMapW rawSpot).2 ≠ none ∧
    (reconcile envDeleteFail).2 ≠ none :=
  ⟨(C1_remediation_error_keeps_message envDeleteFail [rawSpot] ncMapW nMapW
      0 msgSpot
      "acting on NodeClaims, deleting the node on interruption message, boom"
      rfl rfl rfl (by simp) rfl rfl).2.1,
   (C1_remediation_error_keeps_message envDeleteFail [rawSpot] ncMapW nMapW
      0 msgSpot
      "acting on NodeClaims, deleting the node on interruption message, boom"
      rfl rfl rfl (by simp) rfl rfl).2.2.1⟩

/-- C9: when a message fails to parse and the subsequent queue-delete call
also fails, that delete error is recorded for the message and therefore
the cycle's aggregate error is non-empty — even though the parse error
itself is never propagated. -/
theorem C9_unparseable_delete_error_propagates (env : Env)
    (msgs : List RawMsg) (ncMap : List (String × NodeClaim))
    (nMap : List (String × Node)) (i : Nat) (e s : String)
    (hq : env.getSQSMessages = Except.ok msgs)
    (hnc : makeNodeClaimInstanceIDMap env = Except.ok ncMap)
    (hn : makeNodeInstanceIDMap env = Except.ok nMap)
    (hi : i < msgs.length)
    (hp : parseMessage env (msgs.get ⟨i, hi⟩) = Except.error e)
    (hd : env.sqsDelete (msgs.get ⟨i, hi⟩).id = some s) :
    (handleOne env ncMap nMap (msgs.get ⟨i, hi⟩)).2 =
      some ("deleting sqs message, " ++ s) ∧
    (reconcile env).2 ≠ none := by
  have herr : (handleOne env ncMap nMap (msgs.get ⟨i, hi⟩)).2 =
      some ("deleting sqs message, " ++ s) := by
    rw [handleOne_parse_error env ncMap nMap (msgs.get ⟨i, hi⟩) e hp,
      deleteMessage_fail env (msgs.get ⟨i, hi⟩) s hd]
  exact ⟨herr,
    reconcile_err_of_handler_err env msgs ncMap nMap i hq hnc hn hi
      (by rw [herr]; simp)⟩

/-- Witness for C9 in the concrete environment whose SQS delete fails on
an unparseable message. -/
theorem C9_unparseable_delete_error_propagates_witness :
    (handleOne envSqsFail ncMapW nMapW
      { id := "m-1", body := some "garbage" }).2 =
      some ("deleting sqs message, " ++ "sqs down") ∧
    (reconcile envSqsFail).2 ≠ none :=
  C9_unparseable_delete_error_propagates envSqsFail
    [{ id := "m-1", body := some "garbage" }] ncMapW nMapW 0
    "parsing sqs message, unknown payload" "sqs down"
    rfl rfl rfl (by simp) rfl rfl

/-- C8: a successfully parsed message none of whose instance identifiers
matches a NodeClaim is handled without error and without any remediation
side effect — its whole trace is the received-messages counter and, for
non-NoOp kinds, the latency observation — and the message's queue delete
is still issued. -/
theorem C8_correlation_miss_is_silent (env : Env)
    (ncMap : List (String × NodeClaim)) (nMap : List (String × Node))
    (raw : RawMsg) (msg : Message)
    (hp : parseMessage env raw = Except.ok msg)
    (hmiss : ∀ x ∈ msg.instanceIDs, lookupAssoc ncMap x = none) :
    (handleMessage env ncMap nMap msg).2 = none ∧
    (∀ e ∈ (handleMessage env ncMap nMap msg).1,
      e = Effect.incReceivedMessages msg.kind ∨
      e = Effect.observeLatency (env.now - msg.startTime)) ∧
    Effect.sqsDelete raw.id ∈ (handleOne env ncMap nMap raw).1 := by
  have hfold := hmFold_id_of_nomatch env ncMap nMap msg msg.instanceIDs
    hmiss ([Effect.incReceivedMessages msg.kind], [])
  by_cases hk : msg.kind = NoOpKind
  · have heq := handleMessage_noOp env ncMap nMap msg hk
    refine ⟨by rw [heq], ?_, ?_⟩
    · intro e he
      rw [heq] at he
      simp only [List.mem_singleton] at he
      exact Or.inl he
    · rw [handleOne_ok env ncMap nMap raw msg hp (by rw [heq])]
      cases hd : env.sqsDelete raw.id with
      | some e2 => rw [deleteMessage_fail env raw e2 hd]; simp
      | none => rw [deleteMessage_ok env raw hd]; simp
  · have hsnd : (handleMessage env ncMap nMap msg).2 = none := by
      rw [handleMessage_snd_none_iff env ncMap nMap msg hk, hfold]
    refine ⟨hsnd, ?_, ?_⟩
    · intro e he
      rw [handleMessage_fst env ncMap nMap msg hk, hfold] at he
      simp only [List.mem_append, List.mem_singleton] at he
      rcases he with he | he
      · exact Or.inl he
      · exact Or.inr he
    · rw [handleOne_ok env ncMap nMap raw msg hp hsnd]
      cases hd : env.sqsDelete raw.id with
      | some e2 => rw [deleteMessage_fail env raw e2 hd]; simp
      | none => rw [deleteMessage_ok env raw hd]; simp

/-- Witness for C8: the spot message against empty correlation indexes. -/
theorem C8_correlation_miss_is_silent_witness :
    (handleMessage envOk [] [] msgSpot).2 = none ∧
    Effect.sqsDelete "m-1" ∈ (handleOne envOk [] [] rawSpot).1 :=
  ⟨(C8_correlation_miss_is_silent envOk [] [] rawSpot msgSpot rfl
      (by simp [lookupAssoc])).1,
   (C8_correlation_miss_is_silent envOk [] [] rawSpot msgSpot rfl
      (by simp [lookupAssoc])).2.2⟩

/-- C2: for a spot-interruption message and a matched NodeClaim, exactly
one cache write marks (instance-type, zone, spot) unavailable with the
message kind as reason when both labels are non-empty (and none is made
otherwise); exactly one replacement-creation call is attempted, whose
object copies only the generate-name, annotations, labels, owner
references and spec of the original (fresh name, zero status, no deletion
marker); and the creation call's failure never reaches the handler's
error, which is exactly the delete step's error. -/
theorem C2_spot_cache_and_replacement (env : Env) (msg : Message)
    (nc : NodeClaim) (node : Option Node)
    (hk : msg.kind = SpotInterruptionKind) :
    (lookupLabel nc.labels LabelTopologyZone ≠ "" ∧
       lookupLabel nc.labels LabelInstanceTypeStable ≠ "" →
      List.countP isMarkUnavailable (handleNodeClaim env msg nc node).1 = 1 ∧
      Effect.markUnavailable msg.kind
        (lookupLabel nc.labels LabelInstanceTypeStable)
        (lookupLabel nc.labels LabelTopologyZone) CapacityTypeSpot ∈
        (handleNodeClaim env msg nc node).1) ∧
    (¬ (lookupLabel nc.labels LabelTopologyZone ≠ "" ∧
        lookupLabel nc.labels LabelInstanceTypeStable ≠ "") →
      List.countP isMarkUnavailable
        (handleNodeClaim env msg nc node).1 = 0) ∧
    List.countP isCreateCall (handleNodeClaim env msg nc node).1 = 1 ∧
    Effect.createNodeClaimCall (replacementOf nc) ∈
      (handleNodeClaim env msg nc node).1 ∧
    replacementOf nc =
      { name := ""
        generateName := nc.generateName
        annotations := nc.annotations
        labels := nc.labels
        ownerReferences := nc.ownerReferences
        spec := nc.spec
        status := { providerID := "" }
        deletionTimestamp := none } ∧
    (handleNodeClaim env msg nc node).2 = (deleteNodeClaim env nc).2 ∧
    (∀ f, (handleNodeClaim { env with kubeCreate := f } msg nc node).2 =
      (handleNodeClaim env msg nc node).2) := by
  have hact := actionForMessage_spot msg hk
  have hne : actionForMessage msg ≠ Action.NoAction := by
    rw [hact]
    intro hc
    exact Action.noConfusion hc
  have hsc := spotEffects_counts env msg nc hk
  have hfst := handleNodeClaim_fst env msg nc node
  have hnot := notifyForMessage_spot msg nc hk
  have hdc := deleteNodeClaim_fst_counts env nc
  refine ⟨?_, ?_, ?_, ?_, rfl, ?_, ?_⟩
  · intro hl
    refine ⟨?_, ?_⟩
    · rw [hfst, hnot, if_pos hne]
      simp [List.countP_append, List.countP_cons, (hsc.1 hl).1, hdc.1,
        isMarkUnavailable]
    · rw [hfst]
      exact List.mem_append.mpr
        (Or.inl (List.mem_append.mpr (Or.inr (hsc.1 hl).2)))
  · intro hl
    rw [hfst, hnot, if_pos hne]
    simp [List.countP_append, List.countP_cons, hsc.2.1 hl, hdc.1,
      isMarkUnavailable]
  · rw [hfst, hnot, if_pos hne]
    simp [List.countP_append, List.countP_cons, hsc.2.2.1, hdc.2,
      isCreateCall]
  · rw [hfst]
    exact List.mem_append.mpr
      (Or.inl (List.mem_append.mpr (Or.inr hsc.2.2.2)))
  · rw [handleNodeClaim_snd, if_pos hne]
  · intro f
    rw [handleNodeClaim_snd, handleNodeClaim_snd]
    rfl

/-- Witness for C2 in the concrete environment. -/
theorem C2_spot_cache_and_replacement_witness :
    List.countP isMarkUnavailable
      (handleNodeClaim envOk msgSpot ncOk none).1 = 1 ∧
    List.countP isCreateCall
      (handleNodeClaim envOk msgSpot ncOk none).1 = 1 :=
  ⟨((C2_spot_cache_and_replacement envOk msgSpot ncOk none rfl).1
      ⟨by decide, by decide⟩).1,
   (C2_spot_cache_and_replacement envOk msgSpot ncOk none rfl).2.2.1⟩

/-- C10: a spot-interruption message matched to a NodeClaim whose deletion
marker is already set still publishes the spot-interrupted event,
increments the actions-performed counter, marks the offering unavailable
(labels permitting) and attempts the replacement creation; only the delete
step degenerates to a successful no-op — no delete call, no
termination-counter increment, no error. -/
theorem C10_already_deleting_keeps_side_effects (env : Env) (msg : Message)
    (nc : NodeClaim) (node : Option Node) (t : Int)
    (hk : msg.kind = SpotInterruptionKind)
    (hdt : nc.deletionTimestamp = some t) :
    (handleNodeClaim env msg nc node).2 = none ∧
    Effect.publish EventKind.spotInterrupted nc.name ∈
      (handleNodeClaim env msg nc node).1 ∧
    Effect.incActionsPerformed Action.CordonAndDrain ∈
      (handleNodeClaim env msg nc node).1 ∧
    (lookupLabel nc.labels LabelTopologyZone ≠ "" ∧
       lookupLabel nc.labels LabelInstanceTypeStable ≠ "" →
      Effect.markUnavailable msg.kind
        (lookupLabel nc.labels LabelInstanceTypeStable)
        (lookupLabel nc.labels LabelTopologyZone) CapacityTypeSpot ∈
        (handleNodeClaim env msg nc node).1) ∧
    Effect.createNodeClaimCall (replacementOf nc) ∈
      (handleNodeClaim env msg nc node).1 ∧
    (∀ s, Effect.deleteNodeClaimCall s ∉
      (handleNodeClaim env msg nc node).1) ∧
    List.countP isIncTerminatedCounter
      (handleNodeClaim env msg nc node).1 = 0 := by
  have hact := actionForMessage_spot msg hk
  have hne : actionForMessage msg ≠ Action.NoAction := by
    rw [hact]
    intro hc
    exact Action.noConfusion hc
  have hdel : deleteNodeClaim env nc = ([], none) := by
    simp [deleteNodeClaim, hdt]
  have heffs : (handleNodeClaim env msg nc node).1 =
      [Effect.publish EventKind.spotInterrupted nc.name] ++
      [Effect.incActionsPerformed Action.CordonAndDrain] ++
      spotEffects env msg nc := by
    rw [handleNodeClaim_fst, notifyForMessage_spot msg nc hk, if_pos hne,
      hact, hdel]
    simp
  have hsc := spotEffects_counts env msg nc hk
  refine ⟨?_, ?_, ?_, ?_, ?_, ?_, ?_⟩
  · rw [handleNodeClaim_snd, if_pos hne, hdel]
  · rw [heffs]
    simp
  · rw [heffs]
    simp
  · intro hl
    rw [heffs]
    exact List.mem_append.mpr (Or.inr (hsc.1 hl).2)
  · rw [heffs]
    exact List.mem_append.mpr (Or.inr hsc.2.2.2)
  · intro s hs
    rw [heffs] at hs
    simp only [List.mem_append, List.mem_singleton] at hs
    rcases hs with (hs | hs) | hs
    · exact Effect.noConfusion hs
    · exact Effect.noConfusion hs
    · have := (spotClass_not_delete (Effect.deleteNodeClaimCall s)
        (spotEffects_classes env msg nc (Effect.deleteNodeClaimCall s) hs)).2
      simp [isDeleteClaimCall] at this
  · rw [heffs]
    rw [List.countP_append, List.countP_append]
    have hz : List.countP isIncTerminatedCounter
        (spotEffects env msg nc) = 0 := by
      rw [List.countP_eq_zero]
      intro e he
      have := (spotClass_not_delete e (spotEffects_classes env msg nc e he)).1
      simp [this]
    simp [hz, isIncTerminatedCounter]

/-- Witness for C10: the concrete spot message against the already-marked
claim. -/
theorem C10_already_deleting_keeps_side_effects_witness :
    (handleNodeClaim envOk msgSpot
      { ncOk with deletionTimestamp := some 3 } none).2 = none ∧
    Effect.publish EventKind.spotInterrupted "nc-1" ∈
      (handleNodeClaim envOk msgSpot
        { ncOk with deletionTimestamp := some 3 } none).1 :=
  ⟨(C10_already_deleting_keeps_side_effects envOk msgSpot
      { ncOk with deletionTimestamp := some 3 } none 3 rfl rfl).1,
   (C10_already_deleting_keeps_side_effects envOk msgSpot
      { ncOk with deletionTimestamp := some 3 } none 3 rfl rfl).2.1⟩

/-- C5 counterexample: the NoOp message of the concrete environment parses
successfully, is handled without error and is deleted from the queue, yet
no latency observation is ever emitted — `handleMessage` returns before
the observation for `NoOpKind` — refuting the claim that latency is
observed for NoOp messages too. -/
theorem C5_counterexample :
    parseMessage envOk rawNoop = Except.ok msgNoop ∧
    (handleMessage envOk ncMapW nMapW msgNoop).2 = none ∧
    (handleOne envOk ncMapW nMapW rawNoop).2 = none ∧
    Effect.sqsDelete "m-2" ∈ (handleOne envOk ncMapW nMapW rawNoop).1 ∧
    List.countP isObserveLatency
      (handleOne envOk ncMapW nMapW rawNoop).1 = 0 := by
  refine ⟨rfl, rfl, rfl, ?_, rfl⟩
  show Effect.sqsDelete "m-2" ∈
    [Effect.incReceivedMessages NoOpKind, Effect.sqsDelete "m-2",
     Effect.incDeletedMessages]
  simp

/-- C5 (amended): a successfully parsed message whose remediation
succeeded for all matched identifiers (including none) and whose queue
delete succeeds is deleted from the queue with exactly one
deleted-messages increment; latency is observed as `now - StartTime()`
for every such message except NoOp messages, which skip the latency
observation. -/
theorem C5_success_deletes_once (env : Env)
    (ncMap : List (String × NodeClaim)) (nMap : List (String × Node))
    (raw : RawMsg) (msg : Message)
    (hp : parseMessage env raw = Except.ok msg)
    (hh : (handleMessage env ncMap nMap msg).2 = none)
    (hd : env.sqsDelete raw.id = none) :
    Effect.sqsDelete raw.id ∈ (handleOne env ncMap nMap raw).1 ∧
    (handleOne env ncMap nMap raw).2 = none ∧
    List.countP isIncDeletedMessages
      (handleOne env ncMap nMap raw).1 = 1 ∧
    (¬ msg.kind = NoOpKind →
      Effect.observeLatency (env.now - msg.startTime) ∈
        (handleOne env ncMap nMap raw).1) ∧
    (msg.kind = NoOpKind →
      List.countP isObserveLatency
        (handleOne env ncMap nMap raw).1 = 0) := by
  have heq := handleOne_ok env ncMap nMap raw msg hp hh
  have hdm := deleteMessage_ok env raw hd
  have hmz : List.countP isIncDeletedMessages
      (handleMessage env ncMap nMap msg).1 = 0 := by
    rw [List.countP_eq_zero]
    intro e he
    rcases handleMessage_fst_mem env ncMap nMap msg e he with h1 | h1 | h1
    · simp [(handlerEffect_not_queue e h1).1]
    · subst h1
      simp [isIncDeletedMessages]
    · subst h1
      simp [isIncDeletedMessages]
  refine ⟨?_, ?_, ?_, ?_, ?_⟩
  · rw [heq, hdm]
    simp
  · rw [heq, hdm]
  · rw [heq, hdm, List.countP_append, hmz]
    simp [List.countP_cons, isIncDeletedMessages]
  · intro hk
    rw [heq, hdm]
    refine List.mem_append.mpr (Or.inl ?_)
    rw [handleMessage_fst env ncMap nMap msg hk]
    simp
  · intro hk
    rw [heq, hdm, List.countP_append,
      handleMessage_noOp env ncMap nMap msg hk]
    simp [List.countP_cons, isObserveLatency]

/-- Witness for the amended C5: the concrete spot message's happy path. -/
theorem C5_success_deletes_once_witness :
    Effect.sqsDelete "m-1" ∈ (handleOne envOk ncMapW nMapW rawSpot).1 ∧
    Effect.observeLatency 60 ∈ (handleOne envOk ncMapW nMapW rawSpot).1 :=
  ⟨(C5_success_deletes_once envOk ncMapW nMapW rawSpot msgSpot
      rfl rfl rfl).1,
   (C5_success_deletes_once envOk ncMapW nMapW rawSpot msgSpot
      rfl rfl rfl).2.2.2.1 (by decide)⟩

end Claims

end Interruption
